import Mathlib

/-!
Shallow embedding of the core pipeline of `src/app.py` (a credit-card
statement parser): the `DataValidator` class (`validate`, `_clean_date`,
`_clean_amount`), and the response-handling part of
`GeminiParser.parse_statement`.

Modelling conventions:
* Python floats are idealized as exact rationals extended with the special
  values `inf`, `-inf` and `nan` (IEEE rounding, overflow to infinity and
  scientific-notation output formatting are outside the model); this is the
  standard idealization and none of the claims hinge on rounding.
* JSON-decoded Python values (the input of `DataValidator.validate`) are the
  inductive type `JSON`: scalars (`None`, `bool`, `int`, `float`, `str`),
  lists and dicts (assoc lists preserving insertion order, as Python dicts
  do).  `Dict` abbreviates the entry list of a dict.
* Regular expressions of the source are hand-compiled: character classes
  `\d`, `\D`, `\s` are read as their ASCII meaning (`Char.isDigit`,
  `Char.isWhitespace`).
* Exceptions are an explicit `Except PyErr` channel; a bare `except:`
  becomes a `match` discarding the error.
-/

/-- An exact decimal number `num / 10 ^ exp`, the idealized value of a
finite Python float.  Values are kept in canonical form (`exp = 0` or
`num` not divisible by ten), so equality of values is equality of
representations.  Every number this pipeline produces comes from a decimal
literal, so this exact representation loses nothing. -/
structure Dec where
  num : Int
  exp : Nat
deriving DecidableEq

/-- Canonicalize a decimal by stripping factors of ten. -/
def normDec : Int → Nat → Dec
  | n, 0 => ⟨n, 0⟩
  | n, e + 1 => if n % 10 = 0 then normDec (n / 10) e else ⟨n, e + 1⟩

/-- The rational value of a decimal (for relating results to the numbers
the specification quotes). -/
def decToRat (d : Dec) : ℚ := (d.num : ℚ) / 10 ^ d.exp

/-- Idealized Python float: an exact decimal, an infinity, or `nan`. -/
inductive PyNum where
  | fin (d : Dec)
  | inf (pos : Bool)
  | nan
deriving DecidableEq

/-- Scalar Python/JSON values: `None`, `bool`, `int`, `float`, `str`.
`int` and `float` are kept apart because `json.loads` distinguishes them
and `str()` renders them differently. -/
inductive Prim where
  | null
  | bool (b : Bool)
  | int (n : Int)
  | float (x : PyNum)
  | str (s : String)
deriving DecidableEq

/-- JSON-decoded Python values: scalars, lists, and dicts
(ordered association lists, mirroring Python dict insertion order). -/
inductive JSON where
  | prim (p : Prim)
  | arr (xs : List JSON)
  | obj (kvs : List (String × JSON))

/-- The entries of a Python dict holding JSON values. -/
abbrev Dict := List (String × JSON)

/-- Exceptions that the embedded code can raise. -/
inductive PyErr where
  | typeError
  | valueError
  | attributeError
  | jsonDecodeError
deriving DecidableEq

/-- `d.get(key)`: first entry with the given key (Python dicts have unique
keys, so first-match lookup is exact). -/
def dGet {α : Type} : List (String × α) → String → Option α
  | [], _ => none
  | (k, v) :: rest, key => if k = key then some v else dGet rest key

/-- `d[key] = v`: replace the value at an existing key in place (keeping its
position, as Python dicts do), appending when the key is absent. -/
def dSet {α : Type} : List (String × α) → String → α → List (String × α)
  | [], key, v => [(key, v)]
  | (k, w) :: rest, key, v =>
      if k = key then (key, v) :: rest else (k, w) :: dSet rest key v

/-- `key in d`. -/
def dHas {α : Type} (d : List (String × α)) (key : String) : Bool :=
  (dGet d key).isSome

/-- Python truthiness of a scalar. -/
def truthyP : Prim → Bool
  | .null => false
  | .bool b => b
  | .int n => if n = 0 then false else true
  | .float x => if x = PyNum.fin ⟨0, 0⟩ then false else true
  | .str s => if s = "" then false else true

/-- Python truthiness of a JSON value (`bool(nan)` and `bool(inf)` are
true; empty containers are false). -/
def truthy : JSON → Bool
  | .prim p => truthyP p
  | .arr xs => !xs.isEmpty
  | .obj kvs => !kvs.isEmpty

/-- `s.strip()` on a character list: drop surrounding whitespace.
(`String.trim` is definitionally opaque to the kernel, so stripping is
done structurally on the character list.) -/
def pyStripL (cs : List Char) : List Char :=
  ((cs.dropWhile Char.isWhitespace).reverse.dropWhile Char.isWhitespace).reverse

/-- `s.strip()`. -/
def pyStrip (s : String) : String := (pyStripL s.toList).asString

/-! ### `float(str)`: the Python float literal parser

Grammar of `float(s)` on strings (after stripping surrounding whitespace):
optional sign, then `inf`/`infinity`/`nan` (case-insensitive) or a decimal
literal `digits [. digits] [e [sign] digits]` with at least one mantissa
digit, where each digit group may use single underscores between digits
(PEP 515).  The numeric value is exact in the idealized model. -/

/-- Digit value of an ASCII digit character. -/
def digitVal (c : Char) : Nat := c.toNat - 48

/-- Consume a run of digits with single underscores allowed between digits,
accumulating the value and the number of digits consumed. -/
def takeDigitsU : Nat → Nat → List Char → (Nat × Nat × List Char)
  | acc, cnt, [] => (acc, cnt, [])
  | acc, cnt, '_' :: d :: rest =>
      if d.isDigit then takeDigitsU (acc * 10 + digitVal d) (cnt + 1) rest
      else (acc, cnt, '_' :: d :: rest)
  | acc, cnt, c :: rest =>
      if c.isDigit then takeDigitsU (acc * 10 + digitVal c) (cnt + 1) rest
      else (acc, cnt, c :: rest)

/-- A digit group: must begin with a digit (an underscore may not lead). -/
def pUInt (cs : List Char) : Option (Nat × Nat × List Char) :=
  match cs with
  | c :: _ => if c.isDigit then some (takeDigitsU 0 0 cs) else none
  | [] => none

/-- Optional leading sign; `true` means negative. -/
def pSign : List Char → (Bool × List Char)
  | '+' :: r => (false, r)
  | '-' :: r => (true, r)
  | r => (false, r)

/-- Lower-cased string of a character list. -/
def lowString (cs : List Char) : String := (cs.map Char.toLower).asString

/-- `float(s)` on a string, in the idealized model: `none` models a raised
`ValueError`. -/
def pyFloat (s : String) : Option PyNum :=
  let cs := pyStripL s.toList
  let (neg, cs1) := pSign cs
  if cs1.isEmpty then none
  else if lowString cs1 = "inf" ∨ lowString cs1 = "infinity" then
    some (.inf (!neg))
  else if lowString cs1 = "nan" then some .nan
  else
    let (ipOk, ipVal, cs2) :=
      match pUInt cs1 with
      | some (v, _, r) => (true, v, r)
      | none => (false, 0, cs1)
    let (fracVal, fracLen, cs3) :=
      match cs2 with
      | '.' :: r =>
        match pUInt r with
        | some (v, k, r2) => (v, k, r2)
        | none => (0, 0, r)
      | r => (0, 0, r)
    if ipOk = false ∧ fracLen = 0 then none
    else
      let eres : Option (Bool × Nat × List Char) :=
        match cs3 with
        | c :: r =>
          if c = 'e' ∨ c = 'E' then
            let (eneg, r1) := pSign r
            match pUInt r1 with
            | some (v, _, r2) => some (eneg, v, r2)
            | none => none
          else some (false, 0, c :: r)
        | [] => some (false, 0, [])
      match eres with
      | none => none
      | some (eneg, ev, cs4) =>
        if cs4.isEmpty then
          some (.fin (normDec
            ((if neg then -1 else 1) *
              ((ipVal * 10 ^ fracLen + fracVal : Nat) : Int) *
              (if eneg then 1 else (10 : Int) ^ ev))
            (fracLen + (if eneg then ev else 0))))
        else none

/-! ### `DataValidator._clean_amount` -/

/-- `re.sub(r'[$,\s]', '', amount.strip())`: drop dollar signs, commas and
whitespace from the stripped string. -/
def stripAmount (s : String) : String :=
  ((pyStripL s.toList).filter (fun c => ¬ (c = '$' ∨ c = ',' ∨ c.isWhitespace))).asString

/-- The parenthesis-as-negative rule: when both `(` and `)` occur, remove
every parenthesis and prepend a minus sign. -/
def parenAdjust (s : String) : String :=
  if s.toList.contains '(' ∧ s.toList.contains ')' then
    "-" ++ (s.toList.filter (fun c => ¬ (c = '(' ∨ c = ')'))).asString
  else s

/-- `_clean_amount` on a scalar.  `bool` is a Python `int` subclass, so it
passes the `isinstance(amount, (int, float))` test and converts to `0.0` or
`1.0`; values that are neither numeric nor strings fall off the end of the
function body and yield `None`. -/
def clean_amountP : Prim → Option PyNum
  | .null => none
  | .bool b => some (.fin ⟨if b then 1 else 0, 0⟩)
  | .int n => some (.fin ⟨n, 0⟩)
  | .float x => some x
  | .str s => pyFloat (parenAdjust (stripAmount s))

/-- `DataValidator._clean_amount`: lists and dicts match neither
`isinstance` branch and yield `None`; any internal failure is swallowed by
the bare `except:` (modelled by `pyFloat` returning `none`). -/
def clean_amount : JSON → Option PyNum
  | .prim p => clean_amountP p
  | .arr _ => none
  | .obj _ => none

/-! ### Python `str()` rendering

`validate` applies `str(...)` to the raw `card_last_4` and date values, so
the model needs a rendering of every JSON value.  Scalar rendering is
faithful; for floats the idealization prints the exact decimal expansion
(Python prints the shortest round-tripping decimal of the nearest IEEE
double, which agrees on the short decimals produced by this pipeline, and
switches to scientific notation only for extreme magnitudes); container
rendering follows the shape of Python repr with simplified string
escaping.  No claim exercises container or non-decimal rendering. -/

/-- Decimal rendering of a nonnegative value `n / 10 ^ e`. -/
def decRenderPos (n : Nat) (e : Nat) : String :=
  if e = 0 then Nat.repr n ++ ".0"
  else
    ((List.replicate (e + 1 - (Nat.repr n).toList.length) '0' ++
        (Nat.repr n).toList).take
          ((List.replicate (e + 1 - (Nat.repr n).toList.length) '0' ++
            (Nat.repr n).toList).length - e) ++
      '.' :: (List.replicate (e + 1 - (Nat.repr n).toList.length) '0' ++
        (Nat.repr n).toList).drop
          ((List.replicate (e + 1 - (Nat.repr n).toList.length) '0' ++
            (Nat.repr n).toList).length - e)).asString

/-- `str()` of an idealized float: sign, then the exact decimal expansion
with at least one digit on each side of the point. -/
def decRender (d : Dec) : String :=
  if d.num < 0 then "-" ++ decRenderPos d.num.natAbs d.exp
  else decRenderPos d.num.natAbs d.exp

/-- `str()` of an idealized float value. -/
def pyNumRender : PyNum → String
  | .fin d => decRender d
  | .inf pos => if pos then "inf" else "-inf"
  | .nan => "nan"

/-- `str()` of a scalar. -/
def pyStrP : Prim → String
  | .null => "None"
  | .bool b => if b then "True" else "False"
  | .int n => toString n
  | .float x => pyNumRender x
  | .str s => s

/-- A single-quote character, for repr rendering. -/
def quoteChar : Char := Char.ofNat 39

/-- repr of a string (simplified: no escaping of embedded quotes). -/
def quoteS (s : String) : String :=
  quoteChar.toString ++ s ++ quoteChar.toString

/-- repr of a scalar: like `str()` except strings gain quotes. -/
def reprP : Prim → String
  | .str s => quoteS s
  | p => pyStrP p

/-- Fuelled repr of a JSON value (fuel only bounds the recursion; it is
never exhausted when called with `sizeOf`). -/
def reprGo : Nat → JSON → String
  | _, .prim p => reprP p
  | 0, _ => ""
  | fuel + 1, .arr xs =>
      "[" ++ String.intercalate ", " (xs.map (fun x => reprGo fuel x)) ++ "]"
  | fuel + 1, .obj kvs =>
      "\x7b" ++
        String.intercalate ", "
          (kvs.map (fun kv => quoteS kv.1 ++ ": " ++ reprGo fuel kv.2)) ++
        "\x7d"

mutual

/-- Structural size of a JSON value, used as repr fuel. -/
def jsonFuel : JSON → Nat
  | .prim _ => 1
  | .arr xs => 1 + jsonFuelList xs
  | .obj kvs => 1 + jsonFuelKVs kvs

/-- Structural size of a JSON list. -/
def jsonFuelList : List JSON → Nat
  | [] => 0
  | x :: xs => 1 + jsonFuel x + jsonFuelList xs

/-- Structural size of dict entries. -/
def jsonFuelKVs : List (String × JSON) → Nat
  | [] => 0
  | (_, v) :: kvs => 1 + jsonFuel v + jsonFuelKVs kvs

end

/-- Python `str()` of a JSON value: identity on strings, `str()` on other
scalars, repr on containers. -/
def pyStr : JSON → String
  | .prim p => pyStrP p
  | v => reprGo (jsonFuel v) v

/-! ### `DataValidator._clean_date`

`datetime.strptime` is hand-compiled from the regular expressions CPython
builds for the directives appearing in the seven formats:
`%Y` is exactly four digits, `%m` is `1[0-2]|0[1-9]|[1-9]`, `%d` is
`3[01]|[12]\d|0[1-9]|[1-9]`, `%B`/`%b` are the English month names matched
case-insensitively (longest name first, as CPython sorts them), a literal
matches itself, and whitespace in the format matches one or more whitespace
characters.  Alternatives are explored in regex backtracking order, the
overall first match must consume the whole (stripped) string, and the
parsed triple must satisfy the `datetime` constructor range checks
(year 1..9999, day within the month, proleptic Gregorian leap years);
otherwise the format raises and the next format is tried. -/

/-- Format directives appearing in the seven formats. -/
inductive Tok where
  | year
  | mon
  | day
  | monFull
  | monAbbr
  | lit (c : Char)
  | ws

/-- Parsed state: year, month, day (strptime defaults 1900-01-01; every
format here sets all three). -/
structure DParse where
  y : Nat
  m : Nat
  d : Nat
deriving DecidableEq

/-- `%Y`: exactly four digits. -/
def pYear : List Char → List (Nat × List Char)
  | a :: b :: c :: d :: rest =>
      if a.isDigit ∧ b.isDigit ∧ c.isDigit ∧ d.isDigit then
        [(digitVal a * 1000 + digitVal b * 100 + digitVal c * 10 + digitVal d, rest)]
      else []
  | _ => []

/-- `%m`: `1[0-2]|0[1-9]|[1-9]`, alternatives in regex order. -/
def pMon (cs : List Char) : List (Nat × List Char) :=
  (match cs with
   | '1' :: b :: rest => if '0' ≤ b ∧ b ≤ '2' then [(10 + digitVal b, rest)] else []
   | _ => []) ++
  (match cs with
   | '0' :: b :: rest => if '1' ≤ b ∧ b ≤ '9' then [(digitVal b, rest)] else []
   | _ => []) ++
  (match cs with
   | b :: rest => if '1' ≤ b ∧ b ≤ '9' then [(digitVal b, rest)] else []
   | _ => [])

/-- `%d`: `3[01]|[12]\d|0[1-9]|[1-9]`, alternatives in regex order. -/
def pDay (cs : List Char) : List (Nat × List Char) :=
  (match cs with
   | '3' :: b :: rest => if b = '0' ∨ b = '1' then [(30 + digitVal b, rest)] else []
   | _ => []) ++
  (match cs with
   | a :: b :: rest =>
      if (a = '1' ∨ a = '2') ∧ b.isDigit then [(digitVal a * 10 + digitVal b, rest)] else []
   | _ => []) ++
  (match cs with
   | '0' :: b :: rest => if '1' ≤ b ∧ b ≤ '9' then [(digitVal b, rest)] else []
   | _ => []) ++
  (match cs with
   | b :: rest => if '1' ≤ b ∧ b ≤ '9' then [(digitVal b, rest)] else []
   | _ => [])

/-- Full month names with their numbers, in the order CPython builds the
alternation (sorted by length, longest first, stable). -/
def monthsFull : List (String × Nat) :=
  [("september", 9), ("february", 2), ("november", 11), ("december", 12),
   ("january", 1), ("october", 10), ("august", 8), ("march", 3), ("april", 4),
   ("june", 6), ("july", 7), ("may", 5)]

/-- Abbreviated month names (all length 3, so sorting keeps their order). -/
def monthsAbbr : List (String × Nat) :=
  [("jan", 1), ("feb", 2), ("mar", 3), ("apr", 4), ("may", 5), ("jun", 6),
   ("jul", 7), ("aug", 8), ("sep", 9), ("oct", 10), ("nov", 11), ("dec", 12)]

/-- Case-insensitive match of a (lower-case) name at the head of the input. -/
def matchName (cs : List Char) (nm : String) : Option (List Char) :=
  let pat := nm.toList
  if (cs.take pat.length).map Char.toLower = pat then some (cs.drop pat.length)
  else none

/-- `%B` / `%b`: first name of the table matching at the head wins. -/
def pMonName (tbl : List (String × Nat)) (cs : List Char) : List (Nat × List Char) :=
  tbl.filterMap (fun nv => (matchName cs nv.1).map (fun r => (nv.2, r)))

/-- `\s+`: one or more whitespace characters, longest first (regex `+` is
greedy and backtracks). -/
def pWhite (cs : List Char) : List (Unit × List Char) :=
  let run := (cs.takeWhile Char.isWhitespace).length
  (List.range run).map (fun i => ((), cs.drop (run - i)))

/-- One directive, in regex backtracking order. -/
def runTok (t : Tok) (st : DParse) (cs : List Char) : List (DParse × List Char) :=
  match t with
  | .year => (pYear cs).map (fun vr => (⟨vr.1, st.m, st.d⟩, vr.2))
  | .mon => (pMon cs).map (fun vr => (⟨st.y, vr.1, st.d⟩, vr.2))
  | .day => (pDay cs).map (fun vr => (⟨st.y, st.m, vr.1⟩, vr.2))
  | .monFull => (pMonName monthsFull cs).map (fun vr => (⟨st.y, vr.1, st.d⟩, vr.2))
  | .monAbbr => (pMonName monthsAbbr cs).map (fun vr => (⟨st.y, vr.1, st.d⟩, vr.2))
  | .lit c =>
    match cs with
    | c' :: r => if c' = c then [(st, r)] else []
    | [] => []
  | .ws => (pWhite cs).map (fun ur => (st, ur.2))

/-- All complete matches of a directive sequence, in regex backtracking
order (earlier alternatives of earlier directives first). -/
def runToks : List Tok → DParse → List Char → List (DParse × List Char)
  | [], st, cs => [(st, cs)]
  | t :: ts, st, cs =>
      ((runTok t st cs).map (fun sr => runToks ts sr.1 sr.2)).flatten

/-- Proleptic Gregorian leap year, as `datetime` uses. -/
def isLeap (y : Nat) : Bool := y % 4 = 0 ∧ (y % 100 ≠ 0 ∨ y % 400 = 0)

/-- Days in a month. -/
def daysInMonth (y m : Nat) : Nat :=
  if m = 2 then (if isLeap y then 29 else 28)
  else if m = 4 ∨ m = 6 ∨ m = 9 ∨ m = 11 then 30
  else 31

/-- The `datetime(y, m, d)` constructor checks. -/
def validDate (y m d : Nat) : Bool :=
  1 ≤ y ∧ y ≤ 9999 ∧ 1 ≤ m ∧ m ≤ 12 ∧ 1 ≤ d ∧ d ≤ daysInMonth y m

/-- `datetime.strptime(s, fmt)`: the regex takes its first (preferred)
match; it must consume the whole string (no unconverted data) and pass the
constructor checks, otherwise this format raises. -/
def strptimeF (toks : List Tok) (s : String) : Option DParse :=
  match (runToks toks ⟨1900, 1, 1⟩ s.toList).head? with
  | some (st, rest) =>
      if rest.isEmpty ∧ validDate st.y st.m st.d then some st else none
  | none => none

/-- The seven formats of `_clean_date`, in source order. -/
def fmtIsoDash : List Tok := [.year, .lit '-', .mon, .lit '-', .day]
def fmtUsSlash : List Tok := [.mon, .lit '/', .day, .lit '/', .year]
def fmtDayFirst : List Tok := [.day, .lit '/', .mon, .lit '/', .year]
def fmtUsDash : List Tok := [.mon, .lit '-', .day, .lit '-', .year]
def fmtLongMonth : List Tok := [.monFull, .ws, .day, .lit ',', .ws, .year]
def fmtAbbrMonth : List Tok := [.monAbbr, .ws, .day, .lit ',', .ws, .year]
def fmtIsoSlash : List Tok := [.year, .lit '/', .mon, .lit '/', .day]

def allFormats : List (List Tok) :=
  [fmtIsoDash, fmtUsSlash, fmtDayFirst, fmtUsDash, fmtLongMonth, fmtAbbrMonth,
   fmtIsoSlash]

/-- The format loop of `_clean_date`: first successful parse wins. -/
def firstMatch : List (List Tok) → String → Option DParse
  | [], _ => none
  | f :: fs, s =>
    match strptimeF f s with
    | some dt => some dt
    | none => firstMatch fs s

/-- Two zero-padded digits (`strftime` `%m`, `%d`). -/
def pad2 (n : Nat) : List Char :=
  [Nat.digitChar (n / 10 % 10), Nat.digitChar (n % 10)]

/-- Four zero-padded digits (`strftime` `%Y` for years up to 9999). -/
def pad4 (n : Nat) : List Char :=
  [Nat.digitChar (n / 1000 % 10), Nat.digitChar (n / 100 % 10),
   Nat.digitChar (n / 10 % 10), Nat.digitChar (n % 10)]

/-- `dt.strftime("%Y-%m-%d")`. -/
def isoRender (dt : DParse) : String :=
  (pad4 dt.y ++ '-' :: pad2 dt.m ++ '-' :: pad2 dt.d).asString

/-- The value `_clean_date` produces for the string `s`: the first matching
format re-emitted in ISO form, or `s` itself when no format matches (the
stripped string is parsed, the unstripped one passed through). -/
def dateNorm (s : String) : String :=
  match firstMatch allFormats (pyStrip s) with
  | some dt => isoRender dt
  | none => s

/-- `DataValidator._clean_date`: falsy input returns `None`; otherwise the
formats are tried on `str(date_str).strip()` and `str(date_str)` passes
through unmatched. -/
def clean_date (v : JSON) : Option String :=
  if truthy v then some (dateNorm (pyStr v)) else none

/-- Shape check: `YYYY-MM-DD` (four digits, dash, two digits, dash, two
digits). -/
def isIsoShape (s : String) : Bool :=
  match s.toList with
  | [a, b, c, d, e, f, g, h, i, j] =>
      a.isDigit ∧ b.isDigit ∧ c.isDigit ∧ d.isDigit ∧ e = '-' ∧ f.isDigit ∧
        g.isDigit ∧ h = '-' ∧ i.isDigit ∧ j.isDigit
  | _ => false

/-! ### `DataValidator.validate` -/

/-- `re.sub(r'\D', '', s)`: keep only the digits. -/
def onlyDigits (s : String) : String :=
  (s.toList.filter Char.isDigit).asString

/-- Warning text for a malformed card suffix. -/
def cardWarn : String := "Card last 4 digits format issue"

/-- Warning text for a missing issuer. -/
def issuerWarn : String := "Could not identify card issuer"

/-- Warning text for a missing total balance. -/
def balanceWarn : String := "Could not find total balance"

/-- The three date fields, in source order. -/
def dateFields : List String :=
  ["payment_due_date", "billing_cycle_start", "billing_cycle_end"]

/-- The six monetary fields, in source order. -/
def amountFields : List String :=
  ["total_balance", "minimum_payment", "previous_balance", "new_charges",
   "credit_limit", "available_credit"]

/-- The result of `validate`. -/
structure VResult where
  is_valid : Bool
  errors : List String
  warnings : List String
  data : Dict

/-- The `card_last_4` block: when the raw value is truthy, keep exactly four
digits or record a warning; the pair is (updated data copy, warnings). -/
def cardStep (data d : Dict) : Dict × List String :=
  if truthy ((dGet data "card_last_4").getD (.prim .null)) then
    if (onlyDigits (pyStr ((dGet data "card_last_4").getD (.prim .null)))).length = 4 then
      (dSet d "card_last_4"
        (.prim (.str (onlyDigits (pyStr ((dGet data "card_last_4").getD (.prim .null)))))), [])
    else (d, [cardWarn])
  else (d, [])

/-- One iteration of the date loop. -/
def dateStep (data : Dict) (acc : Dict) (f : String) : Dict :=
  if truthy ((dGet data f).getD (.prim .null)) then
    match clean_date ((dGet data f).getD (.prim .null)) with
    | some cd => if cd = "" then acc else dSet acc f (.prim (.str cd))
    | none => acc
  else acc

/-- One iteration of the amount loop (`data.get(field) is not None`). -/
def amountStep (data : Dict) (acc : Dict) (f : String) : Dict :=
  match dGet data f with
  | some (.prim .null) => acc
  | some v =>
    match clean_amount v with
    | some q => dSet acc f (.prim (.float q))
    | none => acc
  | none => acc

/-- Keep a transaction iff it is a dict with a truthy `description`. -/
def keepTxn : JSON → Bool
  | .obj kvs => truthy ((dGet kvs "description").getD (.prim .null))
  | _ => false

/-- `txn.copy()` then overwrite `amount` when `"amount" in txn` and the
cleaned value is not `None`. -/
def cleanTxnD (kvs : Dict) : Dict :=
  match dGet kvs "amount" with
  | some av =>
    match clean_amount av with
    | some q => dSet kvs "amount" (.prim (.float q))
    | none => kvs
  | none => kvs

/-- The cleaned form of a kept transaction entry. -/
def cleanTxn : JSON → JSON
  | .obj kvs => .obj (cleanTxnD kvs)
  | v => v

/-- `for txn in x`: Python iteration over a JSON value.  Lists yield their
items, strings their characters, dicts their keys; numbers and booleans
raise `TypeError`. -/
def pyIter : JSON → Option (List JSON)
  | .arr xs => some xs
  | .prim (.str s) => some (s.toList.map (fun c => .prim (.str c.toString)))
  | .obj kvs => some (kvs.map (fun kv => .prim (.str kv.1)))
  | _ => none

/-- The transaction block: when `data.get("transactions")` is truthy,
iterate it (raising `TypeError` on a non-iterable), keep entries with a
truthy description, clean each kept copy, and store the new list. -/
def txnStep (data : Dict) (d : Dict) : Except PyErr Dict :=
  if truthy ((dGet data "transactions").getD (.prim .null)) then
    match pyIter ((dGet data "transactions").getD (.prim .null)) with
    | some items =>
        .ok (dSet d "transactions" (.arr ((items.filter keepTxn).map cleanTxn)))
    | none => .error .typeError
  else .ok d

/-- The issuer warning: `if not data.get("card_issuer")`. -/
def issuerWarnList (data : Dict) : List String :=
  if truthy ((dGet data "card_issuer").getD (.prim .null)) then [] else [issuerWarn]

/-- The balance warning: `if not data.get("total_balance")`. -/
def balanceWarnList (data : Dict) : List String :=
  if truthy ((dGet data "total_balance").getD (.prim .null)) then [] else [balanceWarn]

/-- `DataValidator.validate`: build the result around a copy of the input,
normalize the card suffix, the three date fields, the six monetary fields
and the transaction list, then append the two advisory warnings.  All reads
go to the input `data`; all writes go to the copy. -/
def validate (data : Dict) : Except PyErr VResult :=
  match txnStep data
      (amountFields.foldl (amountStep data)
        (dateFields.foldl (dateStep data) (cardStep data data).1)) with
  | .error e => .error e
  | .ok d4 =>
      .ok ⟨true, [], (cardStep data data).2 ++ issuerWarnList data ++
             balanceWarnList data, d4⟩

/-! ### `GeminiParser.parse_statement` response handling

The remote model call is an external effect; its text response is the input
here.  `json.loads` is a library call and is abstracted as a parameter
`loads : String → Option JSON` (`none` models `json.JSONDecodeError`). -/

/-- Does `pat` occur at the head of `cs`? -/
def headMatch : List Char → List Char → Bool
  | [], _ => true
  | _ :: _, [] => false
  | p :: ps, c :: cs => p = c && headMatch ps cs

/-- `t.split(sep)` for a nonempty separator, on character lists, with fuel
(the fuel is the input length, always sufficient; a structural definition
keeps the function kernel-computable). -/
def splitGo (pat : List Char) : Nat → List Char → List Char → List (List Char)
  | _, acc, [] => [acc.reverse]
  | 0, acc, rest => [acc.reverse ++ rest]
  | fuel + 1, acc, c :: cs =>
      if headMatch pat (c :: cs) then
        acc.reverse :: splitGo pat fuel [] (List.drop (pat.length - 1) cs)
      else splitGo pat fuel (c :: acc) cs

/-- Python `t.split(sep)` (non-overlapping, left to right). -/
def pySplit (t pat : String) : List String :=
  (splitGo pat.toList t.toList.length [] t.toList).map List.asString

/-- Python `pat in t` for a nonempty pattern: splitting on the pattern
yields more than one piece exactly when it occurs. -/
def containsSub (t pat : String) : Bool := (pySplit t pat).length != 1

/-- `t.split(marker)[1].split("```")[0].strip()`: the fenced content after
the first occurrence of the marker. -/
def fenceExtract (t marker : String) : String :=
  pyStrip (((pySplit ((pySplit t marker).getD 1 "") "```").getD 0 ""))

/-- The fence-stripping of `parse_statement`: prefer a block labelled
` ```json `, fall back to any fence, else leave the text alone. -/
def stripFences (t : String) : String :=
  if containsSub t "```json" then fenceExtract t "```json"
  else if containsSub t "```" then fenceExtract t "```"
  else t

/-- `parse_statement` applied to a raw response text: strip the outer
whitespace, strip fences, and parse; a `loads` failure raises (modelled as
`Except.error`). -/
def parse_statement (loads : String → Option JSON) (resp : String) :
    Except PyErr JSON :=
  match loads (stripFences (pyStrip resp)) with
  | some j => .ok j
  | none => .error .jsonDecodeError

/-- `validate` on an arbitrary parsed JSON document, as `process_statement`
calls it: a non-dict argument fails at `data.copy()` / `data.get`
(`AttributeError`). -/
def validateJ : JSON → Except PyErr VResult
  | .obj kvs => validate kvs
  | _ => .error .attributeError

/-- The parse-then-validate tail of `process_statement`: normalization runs
only when parsing succeeded. -/
def pipeline (loads : String → Option JSON) (resp : String) :
    Except PyErr VResult :=
  match parse_statement loads resp with
  | .ok j => validateJ j
  | .error e => .error e

/-! ### Heap model of `validate` (for the non-mutation claim)

The pure `validate` above cannot express what Python mutation would do, so
the same source is embedded a second time over an explicit heap: dicts and
lists are addressed objects, `data.copy()` / `txn.copy()` allocate, and
`result["data"][k] = v` / `warnings.append(...)` mutate at an address.
Reads of `data` always go through the current heap, so the claim that the
input is never modified is a genuine theorem, not an assumption. -/

/-- A heap value: an immutable scalar or a reference to a dict or list. -/
inductive HVal where
  | prim (p : Prim)
  | dref (r : Nat)
  | lref (r : Nat)
deriving DecidableEq

/-- The heap: dict objects and list objects, addressed by index;
allocation appends. -/
structure Heap where
  dicts : List (List (String × HVal))
  lists : List (List HVal)
deriving DecidableEq

/-- Read a dict object. -/
def getDictH (h : Heap) (r : Nat) : List (String × HVal) := h.dicts.getD r []

/-- Read a list object. -/
def getListH (h : Heap) (r : Nat) : List HVal := h.lists.getD r []

/-- Allocate a dict, returning its address. -/
def allocDictH (h : Heap) (es : List (String × HVal)) : Heap × Nat :=
  (⟨h.dicts ++ [es], h.lists⟩, h.dicts.length)

/-- Allocate a list, returning its address. -/
def allocListH (h : Heap) (xs : List HVal) : Heap × Nat :=
  (⟨h.dicts, h.lists ++ [xs]⟩, h.lists.length)

/-- `obj[k] = v` on the dict at address `r`. -/
def setFieldH (h : Heap) (r : Nat) (k : String) (v : HVal) : Heap :=
  ⟨h.dicts.set r (dSet (getDictH h r) k v), h.lists⟩

/-- `obj.append(v)` on the list at address `r`. -/
def appendListH (h : Heap) (r : Nat) (v : HVal) : Heap :=
  ⟨h.dicts, h.lists.set r (getListH h r ++ [v])⟩

/-- Truthiness of a heap value (containers consult the heap). -/
def truthyH (h : Heap) : HVal → Bool
  | .prim p => truthyP p
  | .dref r => !(getDictH h r).isEmpty
  | .lref r => !(getListH h r).isEmpty

/-- `_clean_amount` on a heap value: references are neither numbers nor
strings, so they fall through to `None` without touching the heap. -/
def clean_amountH : HVal → Option PyNum
  | .prim p => clean_amountP p
  | _ => none

/-- Fuel bound for heap repr (cycles would exhaust it; Python prints
`...` there — unreachable in any claim). -/
def heapFuel (h : Heap) : Nat :=
  h.dicts.length + h.lists.length + 2

/-- Fuelled repr of a heap value. -/
def reprHGo (h : Heap) : Nat → HVal → String
  | _, .prim p => reprP p
  | 0, _ => ""
  | fuel + 1, .dref r =>
      "\x7b" ++
        String.intercalate ", "
          ((getDictH h r).map (fun kv => quoteS kv.1 ++ ": " ++ reprHGo h fuel kv.2)) ++
        "\x7d"
  | fuel + 1, .lref r =>
      "[" ++ String.intercalate ", " ((getListH h r).map (fun x => reprHGo h fuel x)) ++ "]"

/-- `str()` of a heap value. -/
def pyStrH (h : Heap) : HVal → String
  | .prim p => pyStrP p
  | v => reprHGo h (heapFuel h) v

/-- `_clean_date` on a heap value. -/
def clean_dateH (h : Heap) (v : HVal) : Option String :=
  if truthyH h v then some (dateNorm (pyStrH h v)) else none

/-- Heap version of one date-loop iteration: read the field from the input
dict, write the cleaned value into the copy. -/
def dateStepH (dataRef dcopyRef : Nat) (h : Heap) (f : String) : Heap :=
  if truthyH h ((dGet (getDictH h dataRef) f).getD (.prim .null)) then
    match clean_dateH h ((dGet (getDictH h dataRef) f).getD (.prim .null)) with
    | some cd => if cd = "" then h else setFieldH h dcopyRef f (.prim (.str cd))
    | none => h
  else h

/-- Heap version of one amount-loop iteration. -/
def amountStepH (dataRef dcopyRef : Nat) (h : Heap) (f : String) : Heap :=
  match dGet (getDictH h dataRef) f with
  | some (.prim .null) => h
  | some v =>
    match clean_amountH v with
    | some q => setFieldH h dcopyRef f (.prim (.float q))
    | none => h
  | none => h

/-- Heap iteration (`for txn in x`): lists yield items, strings characters,
dicts keys; other values raise `TypeError`. -/
def pyIterH (h : Heap) : HVal → Option (List HVal)
  | .lref r => some (getListH h r)
  | .prim (.str s) => some (s.toList.map (fun c => .prim (.str c.toString)))
  | .dref r => some ((getDictH h r).map (fun kv => .prim (.str kv.1)))
  | _ => none

/-- Heap version of one transaction-loop iteration: a kept entry is copied
(`txn.copy()` allocates), its amount rewritten on the copy, and the copy
appended to the `cleaned_txns` list at `ctxRef`. -/
def txnStepH (ctxRef : Nat) (h : Heap) (txn : HVal) : Heap :=
  match txn with
  | .dref tr =>
    if truthyH h ((dGet (getDictH h tr) "description").getD (.prim .null)) then
      appendListH
        (match dGet (getDictH h tr) "amount" with
         | some av =>
           match clean_amountH av with
           | some q =>
               setFieldH (allocDictH h (getDictH h tr)).1
                 (allocDictH h (getDictH h tr)).2 "amount" (.prim (.float q))
           | none => (allocDictH h (getDictH h tr)).1
         | none => (allocDictH h (getDictH h tr)).1)
        ctxRef (.dref (allocDictH h (getDictH h tr)).2)
    else h
  | _ => h

/-- Heap version of the `card_last_4` block. -/
def cardStepH (dataRef dcopyRef warnsRef : Nat) (h : Heap) : Heap :=
  if truthyH h ((dGet (getDictH h dataRef) "card_last_4").getD (.prim .null)) then
    if (onlyDigits (pyStrH h
          ((dGet (getDictH h dataRef) "card_last_4").getD (.prim .null)))).length = 4 then
      setFieldH h dcopyRef "card_last_4"
        (.prim (.str (onlyDigits (pyStrH h
          ((dGet (getDictH h dataRef) "card_last_4").getD (.prim .null))))))
    else appendListH h warnsRef (.prim (.str cardWarn))
  else h

/-- Heap version of the transaction block. -/
def txnBlockH (dataRef dcopyRef : Nat) (h : Heap) : Except PyErr Heap :=
  if truthyH h ((dGet (getDictH h dataRef) "transactions").getD (.prim .null)) then
    match pyIterH h ((dGet (getDictH h dataRef) "transactions").getD (.prim .null)) with
    | some items =>
      .ok (setFieldH (items.foldl (txnStepH (allocListH h []).2) (allocListH h []).1)
        dcopyRef "transactions" (.lref (allocListH h []).2))
    | none => .error .typeError
  else .ok h

/-- Heap version of one advisory warning (`if not data.get(f)`). -/
def warnStepH (dataRef warnsRef : Nat) (f w : String) (h : Heap) : Heap :=
  if truthyH h ((dGet (getDictH h dataRef) f).getD (.prim .null)) then h
  else appendListH h warnsRef (.prim (.str w))

/-- The body of the heap `validate` once the result-dict literal has been
allocated: run the card, date, amount and transaction blocks (all writes at
`dcopyRef` or `warnsRef`), then the two advisory warnings, and return the
result address.  The slots of the result dict are never reassigned in the
source, so the blocks address the allocated objects directly. -/
def validateHrun (dataRef warnsRef dcopyRef resRef : Nat) (h : Heap) :
    Except PyErr (Heap × Nat) :=
  match txnBlockH dataRef dcopyRef
      (amountFields.foldl (amountStepH dataRef dcopyRef)
        (dateFields.foldl (dateStepH dataRef dcopyRef)
          (cardStepH dataRef dcopyRef warnsRef h))) with
  | .error e => .error e
  | .ok h2 =>
      .ok (warnStepH dataRef warnsRef "total_balance" balanceWarn
        (warnStepH dataRef warnsRef "card_issuer" issuerWarn h2), resRef)

/-- Heap version of `DataValidator.validate`.  The result-dict literal
allocates the `errors` list, the `warnings` list, the `data.copy()` dict
and the result dict itself, in evaluation order; then the blocks run.
Returns the final heap and the address of the result dict. -/
def validateH (h0 : Heap) (dataRef : Nat) : Except PyErr (Heap × Nat) :=
  validateHrun dataRef
    (allocListH (allocListH h0 []).1 []).2
    (allocDictH (allocListH (allocListH h0 []).1 []).1
      (getDictH (allocListH (allocListH h0 []).1 []).1 dataRef)).2
    (allocDictH
      (allocDictH (allocListH (allocListH h0 []).1 []).1
        (getDictH (allocListH (allocListH h0 []).1 []).1 dataRef)).1
      [("is_valid", .prim (.bool true)),
       ("errors", .lref (allocListH h0 []).2),
       ("warnings", .lref (allocListH (allocListH h0 []).1 []).2),
       ("data", .dref (allocDictH (allocListH (allocListH h0 []).1 []).1
          (getDictH (allocListH (allocListH h0 []).1 []).1 dataRef)).2)]).2
    (allocDictH
      (allocDictH (allocListH (allocListH h0 []).1 []).1
        (getDictH (allocListH (allocListH h0 []).1 []).1 dataRef)).1
      [("is_valid", .prim (.bool true)),
       ("errors", .lref (allocListH h0 []).2),
       ("warnings", .lref (allocListH (allocListH h0 []).1 []).2),
       ("data", .dref (allocDictH (allocListH (allocListH h0 []).1 []).1
          (getDictH (allocListH (allocListH h0 []).1 []).1 dataRef)).2)]).1

/-! ### Characterizations and concrete instances used by the theorems -/

/-- What the date loop does to the stored value of field `f`: overwrite
with the cleaned string when the raw value is truthy (and the cleaned
string nonempty), otherwise keep the old stored value. -/
def dateUpd (data : Dict) (f : String) (old : Option JSON) : Option JSON :=
  if truthy ((dGet data f).getD (.prim .null)) then
    match clean_date ((dGet data f).getD (.prim .null)) with
    | some cd => if cd = "" then old else some (.prim (.str cd))
    | none => old
  else old

/-- What the amount loop does to the stored value of field `f`: overwrite
with the successfully cleaned float, otherwise keep the old stored value
(in particular the raw value survives a failed conversion). -/
def amountUpd (data : Dict) (f : String) (old : Option JSON) : Option JSON :=
  match dGet data f with
  | some (.prim .null) => old
  | some v =>
    match clean_amount v with
    | some q => some (.prim (.float q))
    | none => old
  | none => old

/-- A concrete `json.loads` stand-in accepting exactly the empty object,
for witnesses. -/
def loadsW : String → Option JSON :=
  fun s => if s = "\x7b\x7d" then some (.obj []) else none

/-- A concrete model response wrapping the empty object in a fenced block
labelled json. -/
def respW : String := "```json\n\x7b\x7d\n```"

/-- A concrete heap for the non-mutation witness: dict 0 is the input with
a transaction list (list 0) holding a reference to transaction dict 1. -/
def heapW : Heap :=
  ⟨[[("card_last_4", .prim (.str "1234")), ("transactions", .lref 0)],
    [("description", .prim (.str "coffee")), ("amount", .prim (.str "$5.00"))]],
   [[.dref 1]]⟩

/-! ## Theorems

Base lemmas about dict lookup and update. -/

theorem dGet_dSet_self {α : Type} (d : List (String × α)) (k : String) (v : α) :
    dGet (dSet d k v) k = some v := by
  induction d with
  | nil => simp [dGet, dSet]
  | cons kv rest ih =>
    obtain ⟨k', w⟩ := kv
    by_cases h : k' = k
    · subst h; simp [dGet, dSet]
    · simp [dGet, dSet, h, ih]

theorem dGet_dSet_ne {α : Type} (d : List (String × α)) (k k' : String) (v : α)
    (h : k' ≠ k) : dGet (dSet d k v) k' = dGet d k' := by
  induction d with
  | nil => simp [dGet, dSet, Ne.symm h]
  | cons kv rest ih =>
    obtain ⟨k0, w⟩ := kv
    by_cases h0 : k0 = k
    · subst h0
      simp [dGet, dSet, Ne.symm h]
    · simp [dGet, dSet, h0, ih]

theorem dHas_dSet {α : Type} (d : List (String × α)) (k k' : String) (v : α)
    (h : dHas d k' = true) : dHas (dSet d k v) k' = true := by
  by_cases hk : k' = k
  · subst hk; simp [dHas, dGet_dSet_self]
  · simpa [dHas, dGet_dSet_ne d k k' v hk] using h

/-- Folding a step that leaves key `k` alone for other field names leaves
the stored value of `k` alone when `k` is not in the name list. -/
theorem foldl_get_of_ne {step : Dict → String → Dict} {k : String}
    (hs : ∀ acc g, g ≠ k → dGet (step acc g) k = dGet acc k) :
    ∀ (L : List String), k ∉ L → ∀ acc, dGet (L.foldl step acc) k = dGet acc k := by
  intro L
  induction L with
  | nil => intro _ acc; rfl
  | cons g t ih =>
    intro hmem acc
    rw [List.mem_cons] at hmem
    push_neg at hmem
    simp only [List.foldl_cons]
    rw [ih hmem.2, hs acc g (Ne.symm hmem.1)]

/-- Folding a step whose action on key `k` is the idempotent update `upd`
applies `upd` once when `k` is in the name list. -/
theorem foldl_get_of_mem {step : Dict → String → Dict} {k : String}
    {upd : Option JSON → Option JSON}
    (hne : ∀ acc g, g ≠ k → dGet (step acc g) k = dGet acc k)
    (hk : ∀ acc, dGet (step acc k) k = upd (dGet acc k))
    (hid : ∀ x, upd (upd x) = upd x) :
    ∀ (L : List String) (acc : Dict), k ∈ L →
      dGet (L.foldl step acc) k = upd (dGet acc k) := by
  intro L
  induction L with
  | nil => intro acc h; cases h
  | cons g t ih =>
    intro acc hmem
    simp only [List.foldl_cons]
    by_cases hgt : k ∈ t
    · rw [ih _ hgt]
      by_cases hg : g = k
      · subst hg; rw [hk acc, hid]
      · rw [hne acc g hg]
    · have hg : g = k := by
        rcases List.mem_cons.mp hmem with h | h
        · exact h.symm
        · exact absurd h hgt
      subst hg
      rw [foldl_get_of_ne hne t hgt, hk acc]

/-- A property preserved by every step is preserved by the fold. -/
theorem foldl_pres {γ β : Type} {step : γ → β → γ} (P : γ → Prop)
    (hs : ∀ acc g, P acc → P (step acc g)) :
    ∀ (L : List β) (acc : γ), P acc → P (L.foldl step acc) := by
  intro L
  induction L with
  | nil => intro acc h; exact h
  | cons g t ih => intro acc h; exact ih _ (hs acc g h)

/-! Stage lemmas: what each block of `validate` does to a stored field. -/

theorem cardStep_fst_ne (data d : Dict) (k : String) (h : k ≠ "card_last_4") :
    dGet (cardStep data d).1 k = dGet d k := by
  unfold cardStep
  repeat' split
  all_goals first
    | rfl
    | exact dGet_dSet_ne d "card_last_4" k _ h
    | simp_all

theorem dateStep_ne (data acc : Dict) (f k : String) (h : f ≠ k) :
    dGet (dateStep data acc f) k = dGet acc k := by
  unfold dateStep
  repeat' split
  all_goals first
    | rfl
    | exact dGet_dSet_ne acc f k _ (Ne.symm h)
    | simp_all

theorem dateStep_self (data acc : Dict) (f : String) :
    dGet (dateStep data acc f) f = dateUpd data f (dGet acc f) := by
  unfold dateStep dateUpd
  repeat' split
  all_goals first
    | rfl
    | exact dGet_dSet_self acc f _
    | simp_all

theorem dateUpd_idem (data : Dict) (f : String) (x : Option JSON) :
    dateUpd data f (dateUpd data f x) = dateUpd data f x := by
  unfold dateUpd
  repeat' split
  all_goals first
    | rfl
    | simp_all

theorem amountStep_ne (data acc : Dict) (f k : String) (h : f ≠ k) :
    dGet (amountStep data acc f) k = dGet acc k := by
  unfold amountStep
  repeat' split
  all_goals first
    | rfl
    | exact dGet_dSet_ne acc f k _ (Ne.symm h)
    | simp_all

theorem amountStep_self (data acc : Dict) (f : String) :
    dGet (amountStep data acc f) f = amountUpd data f (dGet acc f) := by
  unfold amountStep amountUpd
  repeat' split
  all_goals first
    | rfl
    | exact dGet_dSet_self acc f _
    | simp_all

theorem amountUpd_idem (data : Dict) (f : String) (x : Option JSON) :
    amountUpd data f (amountUpd data f x) = amountUpd data f x := by
  unfold amountUpd
  repeat' split
  all_goals first
    | rfl
    | simp_all

theorem txnStep_ok_ne (data d d4 : Dict) (k : String)
    (h : txnStep data d = .ok d4) (hk : k ≠ "transactions") :
    dGet d4 k = dGet d k := by
  unfold txnStep at h
  split at h
  · split at h
    · cases h
      exact dGet_dSet_ne d "transactions" k _ hk
    · cases h
  · cases h
    rfl

/-- `validate` succeeds exactly through the final branch: the result is
always `is_valid = true`, empty errors, the three warning groups in order,
and the staged data copy. -/
theorem validate_ok (data : Dict) (r : VResult) (h : validate data = .ok r) :
    ∃ d4,
      txnStep data
          (amountFields.foldl (amountStep data)
            (dateFields.foldl (dateStep data) (cardStep data data).1)) = .ok d4 ∧
      r = ⟨true, [], (cardStep data data).2 ++ issuerWarnList data ++
             balanceWarnList data, d4⟩ := by
  unfold validate at h
  split at h
  · cases h
  · rename_i d4 heq
    cases h
    exact ⟨d4, heq, rfl⟩

/-- Closed form for a monetary field: `validate` stores exactly
`amountUpd` of the raw value. -/
theorem validate_amount_get (data : Dict) (r : VResult) (f : String)
    (hf : f ∈ amountFields) (h : validate data = .ok r) :
    dGet r.data f = amountUpd data f (dGet data f) := by
  obtain ⟨d4, htx, hr⟩ := validate_ok data r h
  subst hr
  have hfacts : f ≠ "transactions" ∧ f ∉ dateFields ∧ f ≠ "card_last_4" := by
    simp only [amountFields, List.mem_cons, List.not_mem_nil, or_false] at hf
    rcases hf with rfl | rfl | rfl | rfl | rfl | rfl <;>
      exact ⟨by decide, by decide, by decide⟩
  rw [show (⟨true, [], (cardStep data data).2 ++ issuerWarnList data ++
        balanceWarnList data, d4⟩ : VResult).data = d4 from rfl]
  rw [txnStep_ok_ne data _ d4 f htx hfacts.1]
  rw [foldl_get_of_mem (fun acc g hg => amountStep_ne data acc g f hg)
        (fun acc => amountStep_self data acc f) (amountUpd_idem data f)
        amountFields _ hf]
  rw [foldl_get_of_ne (fun acc g hg => dateStep_ne data acc g f hg)
        dateFields hfacts.2.1 _]
  rw [cardStep_fst_ne data data f hfacts.2.2]

/-- Closed form for a date field: `validate` stores exactly `dateUpd` of
the raw value. -/
theorem validate_date_get (data : Dict) (r : VResult) (f : String)
    (hf : f ∈ dateFields) (h : validate data = .ok r) :
    dGet r.data f = dateUpd data f (dGet data f) := by
  obtain ⟨d4, htx, hr⟩ := validate_ok data r h
  subst hr
  have hfacts : f ≠ "transactions" ∧ f ∉ amountFields ∧ f ≠ "card_last_4" := by
    simp only [dateFields, List.mem_cons, List.not_mem_nil, or_false] at hf
    rcases hf with rfl | rfl | rfl <;>
      exact ⟨by decide, by decide, by decide⟩
  rw [show (⟨true, [], (cardStep data data).2 ++ issuerWarnList data ++
        balanceWarnList data, d4⟩ : VResult).data = d4 from rfl]
  rw [txnStep_ok_ne data _ d4 f htx hfacts.1]
  rw [foldl_get_of_ne (fun acc g hg => amountStep_ne data acc g f hg)
        amountFields hfacts.2.1 _]
  rw [foldl_get_of_mem (fun acc g hg => dateStep_ne data acc g f hg)
        (fun acc => dateStep_self data acc f) (dateUpd_idem data f)
        dateFields _ hf]
  rw [cardStep_fst_ne data data f hfacts.2.2]

/-- Fields not written by the card, date or amount stages still hold their
input value when the transaction block runs. -/
theorem validate_stage3_get (data : Dict) (k : String)
    (hk1 : k ∉ amountFields) (hk2 : k ∉ dateFields) (hk3 : k ≠ "card_last_4") :
    dGet (amountFields.foldl (amountStep data)
      (dateFields.foldl (dateStep data) (cardStep data data).1)) k = dGet data k := by
  rw [foldl_get_of_ne (fun acc g hg => amountStep_ne data acc g k hg)
        amountFields hk1 _]
  rw [foldl_get_of_ne (fun acc g hg => dateStep_ne data acc g k hg)
        dateFields hk2 _]
  rw [cardStep_fst_ne data data k hk3]

/-- The stored card suffix in the result is whatever the card block put in
the copy. -/
theorem validate_card_get (data : Dict) (r : VResult)
    (h : validate data = .ok r) :
    dGet r.data "card_last_4" = dGet (cardStep data data).1 "card_last_4" := by
  obtain ⟨d4, htx, hr⟩ := validate_ok data r h
  subst hr
  rw [show (⟨true, [], (cardStep data data).2 ++ issuerWarnList data ++
        balanceWarnList data, d4⟩ : VResult).data = d4 from rfl]
  rw [txnStep_ok_ne data _ d4 _ htx (by decide)]
  rw [foldl_get_of_ne (fun acc g hg => amountStep_ne data acc g _ hg)
        amountFields (by decide) _]
  rw [foldl_get_of_ne (fun acc g hg => dateStep_ne data acc g _ hg)
        dateFields (by decide) _]

/-- The card block writes the four digits when the raw value is truthy and
exactly four digits survive. -/
theorem cardStep_four (data d : Dict) (v : JSON)
    (hv : dGet data "card_last_4" = some v) (ht : truthy v = true)
    (h4 : (onlyDigits (pyStr v)).length = 4) :
    cardStep data d =
      (dSet d "card_last_4" (.prim (.str (onlyDigits (pyStr v)))), []) := by
  unfold cardStep
  rw [hv]
  simp [ht, h4]

/-- The card block leaves the copy alone and records the warning when the
digit count is wrong. -/
theorem cardStep_bad (data d : Dict) (v : JSON)
    (hv : dGet data "card_last_4" = some v) (ht : truthy v = true)
    (h4 : (onlyDigits (pyStr v)).length ≠ 4) :
    cardStep data d = (d, [cardWarn]) := by
  unfold cardStep
  rw [hv]
  simp [ht, h4]

/-- The card block skips falsy values entirely. -/
theorem cardStep_falsy (data d : Dict) (v : JSON)
    (hv : dGet data "card_last_4" = some v) (ht : truthy v = false) :
    cardStep data d = (d, []) := by
  unfold cardStep
  rw [hv]
  simp [ht]

/-- The card warnings are `[]` or the single card warning. -/
theorem cardStep_snd_cases (data d : Dict) :
    (cardStep data d).2 = [] ∨ (cardStep data d).2 = [cardWarn] := by
  unfold cardStep
  repeat' split
  all_goals simp

/-- The transaction block on a stored empty list does nothing. -/
theorem txnStep_nil (data d : Dict)
    (hv : dGet data "transactions" = some (.arr [])) :
    txnStep data d = .ok d := by
  unfold txnStep
  rw [hv]
  simp [truthy]

/-- The transaction block on a stored nonempty list filters and cleans. -/
theorem txnStep_cons (data d : Dict) (t : JSON) (ts : List JSON)
    (hv : dGet data "transactions" = some (.arr (t :: ts))) :
    txnStep data d =
      .ok (dSet d "transactions"
        (.arr (((t :: ts).filter keepTxn).map cleanTxn))) := by
  unfold txnStep
  rw [hv]
  simp [truthy, pyIter]

/-- Shape of every successful result: valid, no errors, three warning
groups in order. -/
theorem validate_result_shape (data : Dict) (r : VResult)
    (h : validate data = .ok r) :
    r.is_valid = true ∧ r.errors = [] ∧
      r.warnings = (cardStep data data).2 ++ issuerWarnList data ++
        balanceWarnList data := by
  obtain ⟨d4, htx, hr⟩ := validate_ok data r h
  subst hr
  exact ⟨rfl, rfl, rfl⟩

theorem issuerWarn_ne_cardWarn : issuerWarn ≠ cardWarn := by decide

theorem issuerWarn_ne_balanceWarn : issuerWarn ≠ balanceWarn := by decide

theorem balanceWarn_ne_cardWarn : balanceWarn ≠ cardWarn := by decide

theorem cardWarn_ne_issuerWarn : cardWarn ≠ issuerWarn := by decide

theorem cardWarn_ne_balanceWarn : cardWarn ≠ balanceWarn := by decide

theorem balanceWarn_ne_issuerWarn : balanceWarn ≠ issuerWarn := by decide

/-- The issuer warning appears exactly when the raw issuer value is falsy
(missing, `None`, empty, zero or false). -/
theorem issuerWarn_mem_iff (data : Dict) (r : VResult)
    (h : validate data = .ok r) :
    (issuerWarn ∈ r.warnings ↔
      truthy ((dGet data "card_issuer").getD (.prim .null)) = false) := by
  rw [(validate_result_shape data r h).2.2]
  unfold issuerWarnList balanceWarnList
  rcases cardStep_snd_cases data data with hc | hc <;> rw [hc] <;>
    split <;> split <;>
      simp_all [List.mem_append, issuerWarn_ne_cardWarn, issuerWarn_ne_balanceWarn]

/-- The balance warning appears exactly when the raw total balance is
falsy. -/
theorem balanceWarn_mem_iff (data : Dict) (r : VResult)
    (h : validate data = .ok r) :
    (balanceWarn ∈ r.warnings ↔
      truthy ((dGet data "total_balance").getD (.prim .null)) = false) := by
  rw [(validate_result_shape data r h).2.2]
  unfold issuerWarnList balanceWarnList
  rcases cardStep_snd_cases data data with hc | hc <;> rw [hc] <;>
    split <;> split <;>
      simp_all [List.mem_append, balanceWarn_ne_cardWarn, balanceWarn_ne_issuerWarn]

/-- The card warning appears exactly when the card block recorded it. -/
theorem cardWarn_mem_iff (data : Dict) (r : VResult)
    (h : validate data = .ok r) :
    (cardWarn ∈ r.warnings ↔ (cardStep data data).2 = [cardWarn]) := by
  rw [(validate_result_shape data r h).2.2]
  unfold issuerWarnList balanceWarnList
  rcases cardStep_snd_cases data data with hc | hc <;> rw [hc] <;>
    split <;> split <;>
      simp_all [List.mem_append, cardWarn_ne_issuerWarn, cardWarn_ne_balanceWarn]

/-! Key-preservation lemmas: no stage ever deletes a dict key. -/

theorem cardStep_dHas (data d : Dict) (k : String) (h : dHas d k = true) :
    dHas (cardStep data d).1 k = true := by
  unfold cardStep
  repeat' split
  all_goals first
    | exact h
    | exact dHas_dSet d "card_last_4" k _ h

theorem dateStep_dHas (data acc : Dict) (f k : String) (h : dHas acc k = true) :
    dHas (dateStep data acc f) k = true := by
  unfold dateStep
  repeat' split
  all_goals first
    | exact h
    | exact dHas_dSet acc f k _ h

theorem amountStep_dHas (data acc : Dict) (f k : String) (h : dHas acc k = true) :
    dHas (amountStep data acc f) k = true := by
  unfold amountStep
  repeat' split
  all_goals first
    | exact h
    | exact dHas_dSet acc f k _ h

theorem txnStep_ok_dHas (data d d4 : Dict) (k : String)
    (h : txnStep data d = .ok d4) (hd : dHas d k = true) : dHas d4 k = true := by
  unfold txnStep at h
  split at h
  · split at h
    · cases h
      exact dHas_dSet d "transactions" k _ hd
    · cases h
  · cases h
    exact hd

theorem cleanTxnD_dHas (kvs : Dict) (k : String) (h : dHas kvs k = true) :
    dHas (cleanTxnD kvs) k = true := by
  unfold cleanTxnD
  repeat' split
  all_goals first
    | exact h
    | exact dHas_dSet kvs "amount" k _ h

/-- `validate` never drops a key of the input dict. -/
theorem validate_dHas (data : Dict) (r : VResult) (k : String)
    (h : validate data = .ok r) (hk : dHas data k = true) :
    dHas r.data k = true := by
  obtain ⟨d4, htx, hr⟩ := validate_ok data r h
  subst hr
  refine txnStep_ok_dHas data _ d4 k htx ?_
  refine foldl_pres (fun d => dHas d k = true)
    (fun acc g hh => amountStep_dHas data acc g k hh) amountFields _ ?_
  refine foldl_pres (fun d => dHas d k = true)
    (fun acc g hh => dateStep_dHas data acc g k hh) dateFields _ ?_
  exact cardStep_dHas data data k hk

/-! Date lemmas. -/

theorem strptimeF_valid (toks : List Tok) (s : String) (dt : DParse)
    (h : strptimeF toks s = some dt) : validDate dt.y dt.m dt.d = true := by
  unfold strptimeF at h
  split at h
  · split at h
    · cases h
      rename_i hcond
      exact hcond.2
    · cases h
  · cases h

theorem firstMatch_valid (fs : List (List Tok)) (s : String) (dt : DParse)
    (h : firstMatch fs s = some dt) : validDate dt.y dt.m dt.d = true := by
  induction fs with
  | nil => cases h
  | cons f t ih =>
    unfold firstMatch at h
    split at h
    · rename_i heq
      cases h
      exact strptimeF_valid f s _ heq
    · exact ih h

theorem digitChar_isDigit (x : Nat) (h : x < 10) :
    (Nat.digitChar x).isDigit = true := by
  interval_cases x <;> decide

/-- The ISO re-rendering of a constructor-valid date has YYYY-MM-DD shape. -/
theorem isoRender_shape (dt : DParse) (h : validDate dt.y dt.m dt.d = true) :
    isIsoShape (isoRender dt) = true := by
  show isIsoShape (List.asString _) = true
  simp only [isIsoShape, isoRender, pad4, pad2, List.asString]
  simp [digitChar_isDigit _ (Nat.mod_lt _ (by norm_num))]

theorem isoRender_ne_empty (dt : DParse) : isoRender dt ≠ "" := by
  intro h
  have := congrArg String.toList h
  simp [isoRender, pad4, pad2, List.asString] at this

/-- `dateNorm` never maps a nonempty string to the empty string. -/
theorem dateNorm_ne_empty (s : String) (h : s ≠ "") : dateNorm s ≠ "" := by
  unfold dateNorm
  split
  · exact isoRender_ne_empty _
  · exact h

/-- `_clean_date` on a string value. -/
theorem clean_date_str (s : String) :
    clean_date (.prim (.str s)) =
      (if s = "" then none else some (dateNorm s)) := by
  unfold clean_date
  by_cases hs : s = ""
  · subst hs
    simp [truthy, truthyP]
  · simp [truthy, truthyP, hs, pyStr, pyStrP]

/-- Stored date fields holding a string come out as `dateNorm` of that
string: ISO re-rendering on a first match, identity otherwise (the empty
string is falsy and passes through untouched). -/
theorem validate_date_str (data : Dict) (r : VResult) (f s : String)
    (hf : f ∈ dateFields) (h : validate data = .ok r)
    (hv : dGet data f = some (.prim (.str s))) :
    dGet r.data f = some (.prim (.str (dateNorm s))) := by
  rw [validate_date_get data r f hf h]
  unfold dateUpd
  rw [hv]
  by_cases hs : s = ""
  · subst hs
    rw [show dateNorm "" = "" from rfl]
    simp [truthy, truthyP]
  · have ht : truthy ((some (JSON.prim (Prim.str s))).getD (.prim .null)) = true := by
      simp [truthy, truthyP, hs]
    rw [ht]
    simp only [if_true]
    rw [show (some (JSON.prim (Prim.str s))).getD (.prim .null) =
          JSON.prim (Prim.str s) from rfl]
    rw [clean_date_str s]
    simp [hs, dateNorm_ne_empty s hs]

/-! Heap-extension lemmas: every mutation of `validateH` happens at an
address allocated during the call, so the objects of the caller heap are
untouched. -/

theorem set_append_right {α : Type} (l0 t : List α) (r : Nat) (x : α)
    (h : l0.length ≤ r) :
    (l0 ++ t).set r x = l0 ++ t.set (r - l0.length) x := by
  induction l0 generalizing r with
  | nil => simp
  | cons a l ih =>
    cases r with
    | zero => exact absurd h (by simp)
    | succ n =>
      simp only [List.cons_append, List.set, List.length_cons,
        Nat.succ_sub_succ, List.append_eq]
      rw [ih n (by simpa using h)]

theorem prefix_set {α : Type} {l0 l : List α} (h : l0 <+: l) (r : Nat) (x : α)
    (hr : l0.length ≤ r) : l0 <+: l.set r x := by
  rcases h with ⟨t, rfl⟩
  rw [set_append_right l0 t r x hr]
  exact ⟨_, rfl⟩

theorem setFieldH_ext (h0 h : Heap) (r : Nat) (k : String) (v : HVal)
    (hd : h0.dicts <+: h.dicts) (hl : h0.lists <+: h.lists)
    (hr : h0.dicts.length ≤ r) :
    h0.dicts <+: (setFieldH h r k v).dicts ∧
      h0.lists <+: (setFieldH h r k v).lists :=
  ⟨prefix_set hd r _ hr, hl⟩

theorem appendListH_ext (h0 h : Heap) (r : Nat) (v : HVal)
    (hd : h0.dicts <+: h.dicts) (hl : h0.lists <+: h.lists)
    (hr : h0.lists.length ≤ r) :
    h0.dicts <+: (appendListH h r v).dicts ∧
      h0.lists <+: (appendListH h r v).lists :=
  ⟨hd, prefix_set hl r _ hr⟩

theorem allocDictH_ext (h0 h : Heap) (es : List (String × HVal))
    (hd : h0.dicts <+: h.dicts) (hl : h0.lists <+: h.lists) :
    h0.dicts <+: (allocDictH h es).1.dicts ∧
      h0.lists <+: (allocDictH h es).1.lists :=
  ⟨hd.trans ⟨[es], rfl⟩, hl⟩

theorem cardStepH_ext (dataRef dcopyRef warnsRef : Nat) (h0 h : Heap)
    (hd : h0.dicts <+: h.dicts) (hl : h0.lists <+: h.lists)
    (hdc : h0.dicts.length ≤ dcopyRef) (hw : h0.lists.length ≤ warnsRef) :
    h0.dicts <+: (cardStepH dataRef dcopyRef warnsRef h).dicts ∧
      h0.lists <+: (cardStepH dataRef dcopyRef warnsRef h).lists := by
  unfold cardStepH
  repeat' split
  all_goals first
    | exact ⟨hd, hl⟩
    | exact setFieldH_ext h0 h dcopyRef _ _ hd hl hdc
    | exact appendListH_ext h0 h warnsRef _ hd hl hw

theorem dateStepH_ext (dataRef dcopyRef : Nat) (h0 h : Heap) (f : String)
    (hd : h0.dicts <+: h.dicts) (hl : h0.lists <+: h.lists)
    (hdc : h0.dicts.length ≤ dcopyRef) :
    h0.dicts <+: (dateStepH dataRef dcopyRef h f).dicts ∧
      h0.lists <+: (dateStepH dataRef dcopyRef h f).lists := by
  unfold dateStepH
  repeat' split
  all_goals first
    | exact ⟨hd, hl⟩
    | exact setFieldH_ext h0 h dcopyRef _ _ hd hl hdc

theorem amountStepH_ext (dataRef dcopyRef : Nat) (h0 h : Heap) (f : String)
    (hd : h0.dicts <+: h.dicts) (hl : h0.lists <+: h.lists)
    (hdc : h0.dicts.length ≤ dcopyRef) :
    h0.dicts <+: (amountStepH dataRef dcopyRef h f).dicts ∧
      h0.lists <+: (amountStepH dataRef dcopyRef h f).lists := by
  unfold amountStepH
  repeat' split
  all_goals first
    | exact ⟨hd, hl⟩
    | exact setFieldH_ext h0 h dcopyRef _ _ hd hl hdc

theorem warnStepH_ext (dataRef warnsRef : Nat) (f w : String) (h0 h : Heap)
    (hd : h0.dicts <+: h.dicts) (hl : h0.lists <+: h.lists)
    (hw : h0.lists.length ≤ warnsRef) :
    h0.dicts <+: (warnStepH dataRef warnsRef f w h).dicts ∧
      h0.lists <+: (warnStepH dataRef warnsRef f w h).lists := by
  unfold warnStepH
  split
  · exact ⟨hd, hl⟩
  · exact appendListH_ext h0 h warnsRef _ hd hl hw

theorem txnStepH_ext (ctxRef : Nat) (h0 h : Heap) (txn : HVal)
    (hd : h0.dicts <+: h.dicts) (hl : h0.lists <+: h.lists)
    (hc : h0.lists.length ≤ ctxRef) :
    h0.dicts <+: (txnStepH ctxRef h txn).dicts ∧
      h0.lists <+: (txnStepH ctxRef h txn).lists := by
  have halloc : ∀ es : List (String × HVal),
      h0.dicts <+: (allocDictH h es).1.dicts ∧
        h0.lists <+: (allocDictH h es).1.lists :=
    fun es => allocDictH_ext h0 h es hd hl
  have href : ∀ es : List (String × HVal),
      h0.dicts.length ≤ (allocDictH h es).2 :=
    fun es => hd.length_le
  unfold txnStepH
  repeat' split
  all_goals first
    | exact ⟨hd, hl⟩
    | refine appendListH_ext h0 _ ctxRef _ ?_ ?_ hc
  · exact (setFieldH_ext h0 _ _ _ _ (halloc _).1 (halloc _).2 (href _)).1
  · exact (setFieldH_ext h0 _ _ _ _ (halloc _).1 (halloc _).2 (href _)).2
  · exact (halloc _).1
  · exact (halloc _).2
  · exact (halloc _).1
  · exact (halloc _).2

theorem txnBlockH_ext (dataRef dcopyRef : Nat) (h0 h h2 : Heap)
    (heq : txnBlockH dataRef dcopyRef h = .ok h2)
    (hd : h0.dicts <+: h.dicts) (hl : h0.lists <+: h.lists)
    (hdc : h0.dicts.length ≤ dcopyRef) :
    h0.dicts <+: h2.dicts ∧ h0.lists <+: h2.lists := by
  unfold txnBlockH at heq
  split at heq
  · split at heq
    · rename_i items hiter
      cases heq
      have hctx : h0.lists.length ≤ (allocListH h []).2 := hl.length_le
      have hbase : h0.dicts <+: (allocListH h []).1.dicts ∧
          h0.lists <+: (allocListH h []).1.lists := ⟨hd, hl.trans ⟨[[]], rfl⟩⟩
      have hfold := foldl_pres
        (fun hh : Heap => h0.dicts <+: hh.dicts ∧ h0.lists <+: hh.lists)
        (fun acc g hp => txnStepH_ext (allocListH h []).2 h0 acc g hp.1 hp.2 hctx)
        items (allocListH h []).1 hbase
      exact setFieldH_ext h0 _ dcopyRef _ _ hfold.1 hfold.2 hdc
    · cases heq
  · cases heq
    exact ⟨hd, hl⟩

/-- The card, date, amount, transaction and warning stages together only
extend the heap. -/
theorem stagesH_ext (dataRef dcopyRef warnsRef : Nat) (h0 h1 hmid : Heap)
    (hd : h0.dicts <+: h1.dicts) (hl : h0.lists <+: h1.lists)
    (hdc : h0.dicts.length ≤ dcopyRef) (hw : h0.lists.length ≤ warnsRef)
    (heqq : txnBlockH dataRef dcopyRef
      (amountFields.foldl (amountStepH dataRef dcopyRef)
        (dateFields.foldl (dateStepH dataRef dcopyRef)
          (cardStepH dataRef dcopyRef warnsRef h1))) = .ok hmid) :
    h0.dicts <+: (warnStepH dataRef warnsRef "total_balance" balanceWarn
        (warnStepH dataRef warnsRef "card_issuer" issuerWarn hmid)).dicts ∧
      h0.lists <+: (warnStepH dataRef warnsRef "total_balance" balanceWarn
        (warnStepH dataRef warnsRef "card_issuer" issuerWarn hmid)).lists := by
  have hcard := cardStepH_ext dataRef dcopyRef warnsRef h0 h1 hd hl hdc hw
  have hdates := foldl_pres
    (fun hh : Heap => h0.dicts <+: hh.dicts ∧ h0.lists <+: hh.lists)
    (fun acc g hp => dateStepH_ext dataRef dcopyRef h0 acc g hp.1 hp.2 hdc)
    dateFields _ hcard
  have hamounts := foldl_pres
    (fun hh : Heap => h0.dicts <+: hh.dicts ∧ h0.lists <+: hh.lists)
    (fun acc g hp => amountStepH_ext dataRef dcopyRef h0 acc g hp.1 hp.2 hdc)
    amountFields _ hdates
  have hmid2 := txnBlockH_ext dataRef dcopyRef h0 _ hmid heqq
    hamounts.1 hamounts.2 hdc
  have hw1 := warnStepH_ext dataRef warnsRef "card_issuer" issuerWarn h0 hmid
    hmid2.1 hmid2.2 hw
  exact warnStepH_ext dataRef warnsRef "total_balance" balanceWarn h0 _
    hw1.1 hw1.2 hw

/-- `validateH` only ever extends the heap: every object of the caller
heap, in particular the input dict, its transaction list and every
transaction dict, is unchanged in the result heap. -/
theorem validateHrun_ext (dataRef warnsRef dcopyRef resRef : Nat)
    (h0 h1 h' : Heap) (rr : Nat)
    (heq : validateHrun dataRef warnsRef dcopyRef resRef h1 = .ok (h', rr))
    (hd : h0.dicts <+: h1.dicts) (hl : h0.lists <+: h1.lists)
    (hdc : h0.dicts.length ≤ dcopyRef) (hw : h0.lists.length ≤ warnsRef) :
    h0.dicts <+: h'.dicts ∧ h0.lists <+: h'.lists := by
  unfold validateHrun at heq
  split at heq
  · cases heq
  · rename_i hmid heqq
    cases heq
    exact stagesH_ext dataRef dcopyRef warnsRef h0 h1 hmid hd hl hdc hw heqq

theorem validateH_ext (h0 : Heap) (r : Nat) (h' : Heap) (res : Nat)
    (heq : validateH h0 r = .ok (h', res)) :
    h0.dicts <+: h'.dicts ∧ h0.lists <+: h'.lists := by
  unfold validateH at heq
  refine validateHrun_ext _ _ _ _ h0 _ h' res heq ?_ ?_ ?_ ?_
  · simp only [allocDictH, allocListH]
    exact (List.prefix_append _ _).trans (List.prefix_append _ _)
  · simp only [allocDictH, allocListH]
    exact (List.prefix_append _ _).trans (List.prefix_append _ _)
  · simp [allocDictH, allocListH]
  · simp [allocDictH, allocListH]

/-! ## Claim theorems -/

/-- C1 counterexample: on a non-numeric garbage amount the conversion
fails, but the validated record still holds the field with its original
raw value — the field does not end up absent/unset as the claim states. -/
theorem c1_counterexample :
    clean_amount (.prim (.str "abc")) = none
    ∧ validate [("total_balance", JSON.prim (Prim.str "abc"))] =
        .ok ⟨true, [], [issuerWarn], [("total_balance", .prim (.str "abc"))]⟩
    ∧ dGet [("total_balance", JSON.prim (Prim.str "abc"))] "total_balance" =
        some (.prim (.str "abc")) :=
  ⟨rfl, rfl, rfl⟩

/-- C1 (amended): numeric amounts are accepted as-is; string amounts have
dollar signs, commas and whitespace stripped and a parenthesis-wrapped
value negated (`"$1,234.56"` gives `1234.56`, `"(200.00)"` gives
`-200.0`); and on any conversion failure the field keeps its original raw
value in the validated record (it is not removed), without raising. -/
theorem c1_amount_normalization :
    (∀ n : Int, clean_amount (.prim (.int n)) = some (.fin ⟨n, 0⟩))
    ∧ (∀ x : PyNum, clean_amount (.prim (.float x)) = some x)
    ∧ clean_amount (.prim (.str "$1,234.56")) = some (.fin ⟨123456, 2⟩)
    ∧ decToRat ⟨123456, 2⟩ = 1234.56
    ∧ clean_amount (.prim (.str "(200.00)")) = some (.fin ⟨-200, 0⟩)
    ∧ decToRat ⟨-200, 0⟩ = -200
    ∧ (∀ (data : Dict) (r : VResult) (f : String), f ∈ amountFields →
        validate data = .ok r →
        dGet r.data f = amountUpd data f (dGet data f))
    ∧ (∀ (data : Dict) (f : String) (v : JSON), dGet data f = some v →
        v ≠ .prim .null → clean_amount v = none →
        amountUpd data f (dGet data f) = some v) := by
  refine ⟨fun n => rfl, fun x => rfl, by decide, by norm_num [decToRat],
    by decide, by norm_num [decToRat],
    fun data r f hf h => validate_amount_get data r f hf h, ?_⟩
  intro data f v hv hnull hclean
  unfold amountUpd
  rw [hv]
  cases v with
  | prim p => cases p <;> simp [hclean]
  | arr xs => simp [hclean]
  | obj kvs => simp [hclean]

/-- C1 witness: a garbage `minimum_payment` survives unchanged in the
result. -/
theorem c1_amount_normalization_witness :
    ∃ r, validate [("minimum_payment", JSON.prim (Prim.str "abc"))] = .ok r ∧
      dGet r.data "minimum_payment" = some (.prim (.str "abc")) := by
  refine ⟨⟨true, [], [issuerWarn, balanceWarn],
    [("minimum_payment", .prim (.str "abc"))]⟩, rfl, ?_⟩
  have h := c1_amount_normalization.2.2.2.2.2.2.1
    [("minimum_payment", JSON.prim (Prim.str "abc"))]
    ⟨true, [], [issuerWarn, balanceWarn],
      [("minimum_payment", .prim (.str "abc"))]⟩
    "minimum_payment" (by decide) rfl
  exact h.trans (by rfl)

/-- C2: a date-field string matching one of the seven formats (tried in
source order, first successful parse winning) is re-emitted in YYYY-MM-DD
form; a string matching none passes through unchanged. -/
theorem c2_date_normalization :
    (∀ (s : String) (dt : DParse),
      firstMatch allFormats (pyStrip s) = some dt →
      dateNorm s = isoRender dt ∧ isIsoShape (isoRender dt) = true)
    ∧ (∀ s : String, firstMatch allFormats (pyStrip s) = none → dateNorm s = s)
    ∧ (∀ (data : Dict) (r : VResult) (f s : String), f ∈ dateFields →
        validate data = .ok r → dGet data f = some (.prim (.str s)) →
        dGet r.data f = some (.prim (.str (dateNorm s)))) := by
  refine ⟨?_, ?_, fun data r f s hf h hv => validate_date_str data r f s hf h hv⟩
  · intro s dt h
    unfold dateNorm
    rw [h]
    exact ⟨rfl, isoRender_shape dt (firstMatch_valid allFormats (pyStrip s) dt h)⟩
  · intro s h
    unfold dateNorm
    rw [h]

/-- C2 witness: `"03/15/2024"` is normalized to `"2024-03-15"` by the US
slash format. -/
theorem c2_date_normalization_witness :
    ∃ r, validate [("payment_due_date", JSON.prim (Prim.str "03/15/2024"))] = .ok r ∧
      dGet r.data "payment_due_date" = some (.prim (.str "2024-03-15")) := by
  refine ⟨⟨true, [], [issuerWarn, balanceWarn],
    [("payment_due_date", .prim (.str "2024-03-15"))]⟩, rfl, ?_⟩
  have h := c2_date_normalization.2.2
    [("payment_due_date", JSON.prim (Prim.str "03/15/2024"))]
    ⟨true, [], [issuerWarn, balanceWarn],
      [("payment_due_date", .prim (.str "2024-03-15"))]⟩
    "payment_due_date" "03/15/2024" (by decide) rfl rfl
  exact h.trans (by rfl)

/-- C3 counterexample: the empty-string card suffix leaves 0 digits (not
4), yet no warning is recorded — the falsy value skips the check — so the
claim that any other digit count appends a warning is false. -/
theorem c3_counterexample :
    validate [("card_last_4", JSON.prim (Prim.str ""))] =
      .ok ⟨true, [], [issuerWarn, balanceWarn],
        [("card_last_4", .prim (.str ""))]⟩
    ∧ (onlyDigits (pyStr (.prim (.str "")))).length ≠ 4
    ∧ cardWarn ∉ [issuerWarn, balanceWarn] :=
  ⟨rfl, by decide, by decide⟩

/-- C3 (amended): for a truthy `card_last_4` value, exactly four surviving
digits are stored and no card warning is recorded; any other digit count
preserves the original value and appends the warning; a falsy value
(empty string, zero, `None` stored in the field) is left untouched with no
warning. -/
theorem c3_card_suffix : ∀ (data : Dict) (r : VResult),
    validate data = .ok r →
    (∀ v : JSON, dGet data "card_last_4" = some v → truthy v = true →
      ((onlyDigits (pyStr v)).length = 4 →
        dGet r.data "card_last_4" = some (.prim (.str (onlyDigits (pyStr v)))) ∧
          cardWarn ∉ r.warnings)
      ∧ ((onlyDigits (pyStr v)).length ≠ 4 →
        dGet r.data "card_last_4" = some v ∧ cardWarn ∈ r.warnings))
    ∧ (∀ v : JSON, dGet data "card_last_4" = some v → truthy v = false →
      dGet r.data "card_last_4" = some v ∧ cardWarn ∉ r.warnings) := by
  intro data r h
  constructor
  · intro v hv ht
    constructor
    · intro h4
      constructor
      · rw [validate_card_get data r h, cardStep_four data data v hv ht h4]
        exact dGet_dSet_self data "card_last_4" _
      · rw [cardWarn_mem_iff data r h, cardStep_four data data v hv ht h4]
        simp
    · intro h4
      constructor
      · rw [validate_card_get data r h, cardStep_bad data data v hv ht h4]
        exact hv
      · rw [cardWarn_mem_iff data r h, cardStep_bad data data v hv ht h4]
  · intro v hv ht
    constructor
    · rw [validate_card_get data r h, cardStep_falsy data data v hv ht]
      exact hv
    · rw [cardWarn_mem_iff data r h, cardStep_falsy data data v hv ht]
      simp

/-- C3 witness: `"4532-"` strips to exactly `"4532"` and is stored with no
warning. -/
theorem c3_card_suffix_witness :
    ∃ r, validate [("card_last_4", JSON.prim (Prim.str "4532-"))] = .ok r ∧
      dGet r.data "card_last_4" = some (.prim (.str "4532")) ∧
      cardWarn ∉ r.warnings := by
  refine ⟨⟨true, [], [issuerWarn, balanceWarn],
    [("card_last_4", .prim (.str "4532"))]⟩, rfl, ?_⟩
  have h := ((c3_card_suffix
    [("card_last_4", JSON.prim (Prim.str "4532-"))]
    ⟨true, [], [issuerWarn, balanceWarn],
      [("card_last_4", .prim (.str "4532"))]⟩
    rfl).1 (JSON.prim (Prim.str "4532-")) rfl (by decide)).1 (by decide)
  exact ⟨h.1.trans (by rfl), h.2⟩

/-- C4: exactly the transaction entries lacking a truthy description are
dropped; the kept entries appear in order, each with its amount rewritten
by the same rule as the top-level monetary fields (successful cleaning
replaces, failure keeps the raw value, an absent amount is untouched). -/
theorem c4_transaction_cleaning :
    (∀ (data : Dict) (r : VResult) (txns : List JSON),
      validate data = .ok r → dGet data "transactions" = some (.arr txns) →
      dGet r.data "transactions" =
        some (.arr ((txns.filter keepTxn).map cleanTxn)))
    ∧ (∀ (kvs : Dict) (v : JSON), dGet kvs "amount" = some v →
        dGet (cleanTxnD kvs) "amount" =
          (match clean_amount v with
           | some q => some (.prim (.float q))
           | none => some v))
    ∧ (∀ kvs : Dict, dGet kvs "amount" = none → cleanTxnD kvs = kvs) := by
  refine ⟨?_, ?_, ?_⟩
  · intro data r txns h hv
    obtain ⟨d4, htx, hr⟩ := validate_ok data r h
    subst hr
    cases txns with
    | nil =>
      rw [txnStep_nil data _ hv] at htx
      cases htx
      exact (validate_stage3_get data "transactions" (by decide) (by decide)
        (by decide)).trans hv
    | cons t ts =>
      rw [txnStep_cons data _ t ts hv] at htx
      cases htx
      exact dGet_dSet_self _ "transactions" _
  · intro kvs v hv
    unfold cleanTxnD
    rw [hv]
    cases hc : clean_amount v <;> simp [hc, hv, dGet_dSet_self]
  · intro kvs hv
    unfold cleanTxnD
    rw [hv]

/-- C4 witness: of two entries only the one with a truthy description is
kept, with its `"$5"` amount normalized to the float `5.0`. -/
theorem c4_transaction_cleaning_witness :
    ∃ r, validate [("transactions", JSON.arr
        [.obj [("description", .prim (.str "a")), ("amount", .prim (.str "$5"))],
         .obj [("description", .prim (.str ""))]])] = .ok r ∧
      dGet r.data "transactions" = some (.arr
        [.obj [("description", .prim (.str "a")),
               ("amount", .prim (.float (.fin ⟨5, 0⟩)))]]) := by
  refine ⟨⟨true, [], [issuerWarn, balanceWarn],
    [("transactions", .arr
      [.obj [("description", .prim (.str "a")),
             ("amount", .prim (.float (.fin ⟨5, 0⟩)))]])]⟩, rfl, ?_⟩
  have h := c4_transaction_cleaning.1
    [("transactions", JSON.arr
      [.obj [("description", .prim (.str "a")), ("amount", .prim (.str "$5"))],
       .obj [("description", .prim (.str ""))]])]
    ⟨true, [], [issuerWarn, balanceWarn],
      [("transactions", .arr
        [.obj [("description", .prim (.str "a")),
               ("amount", .prim (.float (.fin ⟨5, 0⟩)))]])]⟩
    [.obj [("description", .prim (.str "a")), ("amount", .prim (.str "$5"))],
     .obj [("description", .prim (.str ""))]]
    rfl rfl
  exact h.trans (by rfl)

/-- C5 counterexample: a truthy non-iterable `transactions` value makes
the `for` loop raise `TypeError`, so there is an input on which validation
hard-fails, contradicting the claim. -/
theorem c5_counterexample :
    validate [("transactions", JSON.prim (Prim.int 5))] = .error .typeError :=
  rfl

/-- C5 (amended): whenever `validate` returns (in particular whenever the
`transactions` field is absent, falsy, or iterable), the result has
`isValid = true` and an empty error list — the only hard-failure path is
the uncaught `TypeError` from iterating a non-iterable `transactions`
value. -/
theorem c5_no_hard_failure : ∀ (data : Dict) (r : VResult),
    validate data = .ok r → r.is_valid = true ∧ r.errors = [] :=
  fun data r h =>
    ⟨(validate_result_shape data r h).1, (validate_result_shape data r h).2.1⟩

/-- C5 witness: the empty record validates successfully. -/
theorem c5_no_hard_failure_witness :
    ∃ r, validate [] = .ok r ∧ r.is_valid = true ∧ r.errors = [] :=
  ⟨⟨true, [], [issuerWarn, balanceWarn], []⟩, rfl,
    c5_no_hard_failure [] ⟨true, [], [issuerWarn, balanceWarn], []⟩ rfl⟩

/-- C6: every key present in the input dict is present in the normalized
output data (normalization never drops a field), and a kept transaction
entry keeps every one of its keys; only entries without a truthy
description are removed from the transactions list (which is the C4
filter). -/
theorem c6_field_preservation :
    (∀ (data : Dict) (r : VResult) (k : String),
      validate data = .ok r → dHas data k = true → dHas r.data k = true)
    ∧ (∀ (kvs : Dict) (k : String), dHas kvs k = true →
        dHas (cleanTxnD kvs) k = true) :=
  ⟨fun data r k h hk => validate_dHas data r k h hk,
   fun kvs k hk => cleanTxnD_dHas kvs k hk⟩

/-- C6 witness: an unknown extra field survives validation. -/
theorem c6_field_preservation_witness :
    ∃ r, validate [("extra_field", JSON.prim (Prim.int 7))] = .ok r ∧
      dHas r.data "extra_field" = true :=
  ⟨⟨true, [], [issuerWarn, balanceWarn], [("extra_field", .prim (.int 7))]⟩,
    rfl,
    c6_field_preservation.1 [("extra_field", JSON.prim (Prim.int 7))]
      ⟨true, [], [issuerWarn, balanceWarn], [("extra_field", .prim (.int 7))]⟩
      "extra_field" rfl rfl⟩

/-- C7: a fenced block labelled json is preferred and unwrapped, any other
fence is unwrapped as a fallback, an unfenced response is parsed directly,
and a response whose remaining text fails to parse raises, so validation
never runs on an unparseable response. -/
theorem c7_response_handling : ∀ (loads : String → Option JSON) (resp : String),
    (containsSub (pyStrip resp) "```json" = true →
      parse_statement loads resp =
        (match loads (fenceExtract (pyStrip resp) "```json") with
         | some j => .ok j
         | none => .error .jsonDecodeError))
    ∧ (containsSub (pyStrip resp) "```json" = false →
        containsSub (pyStrip resp) "```" = true →
        parse_statement loads resp =
          (match loads (fenceExtract (pyStrip resp) "```") with
           | some j => .ok j
           | none => .error .jsonDecodeError))
    ∧ (containsSub (pyStrip resp) "```json" = false →
        containsSub (pyStrip resp) "```" = false →
        parse_statement loads resp =
          (match loads (pyStrip resp) with
           | some j => .ok j
           | none => .error .jsonDecodeError))
    ∧ (loads (stripFences (pyStrip resp)) = none →
        pipeline loads resp = .error .jsonDecodeError) := by
  intro loads resp
  refine ⟨?_, ?_, ?_, ?_⟩
  · intro h1
    unfold parse_statement stripFences
    rw [h1]
    simp
  · intro h1 h2
    unfold parse_statement stripFences
    rw [h1, h2]
    simp
  · intro h1 h2
    unfold parse_statement stripFences
    rw [h1, h2]
    simp
  · intro h
    unfold pipeline parse_statement
    rw [h]

/-- C7 witness: a response fenced with a json label unwraps to the inner
object. -/
theorem c7_response_handling_witness :
    containsSub (pyStrip respW) "```json" = true ∧
      parse_statement loadsW respW = .ok (.obj []) :=
  ⟨by decide,
    ((c7_response_handling loadsW respW).1 (by decide)).trans (by rfl)⟩

/-- C8 counterexample: with `card_issuer` present (empty string) and
`total_balance` present (zero), both fields exist in the input yet both
warnings are emitted — the "if and only if missing" direction fails. -/
theorem c8_counterexample :
    validate [("card_issuer", JSON.prim (Prim.str "")),
        ("total_balance", JSON.prim (Prim.int 0))] =
      .ok ⟨true, [], [issuerWarn, balanceWarn],
        [("card_issuer", .prim (.str "")),
         ("total_balance", .prim (.float (.fin ⟨0, 0⟩)))]⟩
    ∧ dHas [("card_issuer", JSON.prim (Prim.str "")),
        ("total_balance", JSON.prim (Prim.int 0))] "card_issuer" = true
    ∧ dHas [("card_issuer", JSON.prim (Prim.str "")),
        ("total_balance", JSON.prim (Prim.int 0))] "total_balance" = true :=
  ⟨rfl, rfl, rfl⟩

/-- C8 (amended): the issuer warning appears iff the raw issuer value is
missing or falsy, the balance warning iff the raw total balance is missing
or falsy; both are advisory only — `isValid` stays true and no error is
recorded. -/
theorem c8_completeness_warnings : ∀ (data : Dict) (r : VResult),
    validate data = .ok r →
    (issuerWarn ∈ r.warnings ↔
      truthy ((dGet data "card_issuer").getD (.prim .null)) = false)
    ∧ (balanceWarn ∈ r.warnings ↔
      truthy ((dGet data "total_balance").getD (.prim .null)) = false)
    ∧ r.is_valid = true ∧ r.errors = [] :=
  fun data r h =>
    ⟨issuerWarn_mem_iff data r h, balanceWarn_mem_iff data r h,
     (validate_result_shape data r h).1, (validate_result_shape data r h).2.1⟩

/-- C8 witness: with both fields present and truthy, neither warning
appears and the result is valid. -/
theorem c8_completeness_warnings_witness :
    ∃ r, validate [("card_issuer", JSON.prim (Prim.str "Chase")),
        ("total_balance", JSON.prim (Prim.int 100))] = .ok r ∧
      issuerWarn ∉ r.warnings ∧ balanceWarn ∉ r.warnings ∧
      r.is_valid = true := by
  refine ⟨⟨true, [], [],
    [("card_issuer", .prim (.str "Chase")),
     ("total_balance", .prim (.float (.fin ⟨100, 0⟩)))]⟩, rfl, ?_, ?_, rfl⟩
  · intro hmem
    have h := (c8_completeness_warnings
      [("card_issuer", JSON.prim (Prim.str "Chase")),
       ("total_balance", JSON.prim (Prim.int 100))]
      ⟨true, [], [],
        [("card_issuer", .prim (.str "Chase")),
         ("total_balance", .prim (.float (.fin ⟨100, 0⟩)))]⟩ rfl).1.mp hmem
    exact absurd h (by decide)
  · intro hmem
    have h := (c8_completeness_warnings
      [("card_issuer", JSON.prim (Prim.str "Chase")),
       ("total_balance", JSON.prim (Prim.int 100))]
      ⟨true, [], [],
        [("card_issuer", .prim (.str "Chase")),
         ("total_balance", .prim (.float (.fin ⟨100, 0⟩)))]⟩ rfl).2.1.mp hmem
    exact absurd h (by decide)

/-- C9: the heap embedding of `validate` only ever extends the heap — the
caller heap is a prefix of the result heap — so the input dict, its
transaction list object and every transaction dict are unchanged: the
result data is built on a copy and each kept transaction entry is copied
before its amount is rewritten. -/
theorem c9_input_non_mutation : ∀ (h0 : Heap) (dataRef : Nat) (h' : Heap)
    (res : Nat), validateH h0 dataRef = .ok (h', res) →
    (h0.dicts <+: h'.dicts ∧ h0.lists <+: h'.lists)
    ∧ (∀ i, i < h0.dicts.length → getDictH h' i = getDictH h0 i)
    ∧ (∀ i, i < h0.lists.length → getListH h' i = getListH h0 i) := by
  intro h0 dataRef h' res heq
  have hext := validateH_ext h0 dataRef h' res heq
  refine ⟨hext, ?_, ?_⟩
  · intro i hi
    rcases hext.1 with ⟨t, ht⟩
    unfold getDictH
    rw [← ht, List.getD_append _ _ _ _ hi]
  · intro i hi
    rcases hext.2 with ⟨t, ht⟩
    unfold getListH
    rw [← ht, List.getD_append _ _ _ _ hi]

/-- C9 witness: on a concrete heap with one transaction the call succeeds
and the original objects are untouched. -/
theorem c9_input_non_mutation_witness :
    ∃ p : Heap × Nat, validateH heapW 0 = .ok p ∧
      heapW.dicts <+: p.1.dicts ∧ heapW.lists <+: p.1.lists :=
  ⟨_, rfl, (c9_input_non_mutation heapW 0 _ _ rfl).1.1,
    (c9_input_non_mutation heapW 0 _ _ rfl).1.2⟩

/-- C10: `_clean_amount` is total — every input yields a float or `None`
(the bare `except:` swallows every conversion failure) — and values that
are neither numeric (`int`, `float`, `bool`) nor strings always yield
`None`: `None` itself, lists and dicts all do. -/
theorem c10_clean_amount_totality :
    (∀ v : JSON, clean_amount v = none ∨ ∃ x : PyNum, clean_amount v = some x)
    ∧ clean_amount (.prim .null) = none
    ∧ (∀ xs : List JSON, clean_amount (.arr xs) = none)
    ∧ (∀ kvs : Dict, clean_amount (.obj kvs) = none) := by
  refine ⟨?_, rfl, fun xs => rfl, fun kvs => rfl⟩
  intro v
  cases h : clean_amount v with
  | none => exact Or.inl rfl
  | some x => exact Or.inr ⟨x, rfl⟩
